import Mathlib

/-!
Verification of the ATENA code analyzer core (`code_analyzer.py`) against its
natural-language specification.  The Python data model and the analysis
operations are shallowly embedded below; parsing itself (Python's `ast.parse`)
is external to the repository, so a parse outcome is an input of the model.
-/

namespace Atena

/-- Counts of the parameter groups of a Python `ast.arguments` record:
`args` holds the plain positional-or-keyword parameters, the remaining
fields the other parameter groups. -/
structure Arguments where
  posonlyargs : Nat
  args : Nat
  kwonlyargs : Nat
  vararg : Bool
  kwarg : Bool
deriving DecidableEq, Repr

/-- The fragment of the Python AST the analyzer inspects.  Each constructor
keeps the child nodes the stdlib `ast.iter_child_nodes` would yield for it;
node kinds the analyzer never distinguishes are collapsed into `other`.
`boolOp` keeps its operand list `values` (matching `ast.BoolOp.values`). -/
inductive Node where
  | functionDef (name : String) (lineno : Nat) (end_lineno : Option Nat)
      (args : Arguments) (docstring : Option String) (body : List Node)
  | classDef (name : String) (lineno : Nat) (docstring : Option String) (body : List Node)
  | ifStmt (body : List Node)
  | whileStmt (body : List Node)
  | forStmt (body : List Node)
  | exceptHandler (body : List Node)
  | boolOp (values : List Node)
  | other (body : List Node)

/-- The child nodes of a node, as `ast.iter_child_nodes` yields them. -/
def children : Node → List Node
  | .functionDef _ _ _ _ _ body => body
  | .classDef _ _ _ body => body
  | .ifStmt body => body
  | .whileStmt body => body
  | .forStmt body => body
  | .exceptHandler body => body
  | .boolOp values => values
  | .other body => body

mutual

/-- Number of nodes in a subtree (measure for the breadth-first walk). -/
def nodeSize : Node → Nat
  | .functionDef _ _ _ _ _ body => 1 + sizeList body
  | .classDef _ _ _ body => 1 + sizeList body
  | .ifStmt body => 1 + sizeList body
  | .whileStmt body => 1 + sizeList body
  | .forStmt body => 1 + sizeList body
  | .exceptHandler body => 1 + sizeList body
  | .boolOp values => 1 + sizeList values
  | .other body => 1 + sizeList body

/-- Total number of nodes in a forest. -/
def sizeList : List Node → Nat
  | [] => 0
  | n :: t => nodeSize n + sizeList t

end

mutual

/-- All nodes of a subtree, the root first (depth-first listing). -/
def subnodes : Node → List Node
  | .functionDef nm l e a d body => .functionDef nm l e a d body :: subnodesList body
  | .classDef nm l d body => .classDef nm l d body :: subnodesList body
  | .ifStmt body => .ifStmt body :: subnodesList body
  | .whileStmt body => .whileStmt body :: subnodesList body
  | .forStmt body => .forStmt body :: subnodesList body
  | .exceptHandler body => .exceptHandler body :: subnodesList body
  | .boolOp values => .boolOp values :: subnodesList values
  | .other body => .other body :: subnodesList body

/-- All nodes of a forest of subtrees. -/
def subnodesList : List Node → List Node
  | [] => []
  | n :: t => subnodes n ++ subnodesList t

end

theorem nodeSize_eq (n : Node) : nodeSize n = 1 + sizeList (children n) := by
  cases n <;> simp [nodeSize, children]

theorem sizeList_append (a b : List Node) :
    sizeList (a ++ b) = sizeList a + sizeList b := by
  induction a with
  | nil => simp [sizeList]
  | cons n t ih => simp [sizeList, ih]; omega

/-- The breadth-first traversal of `ast.walk`, started on a queue of nodes:
the head node is yielded and its children are appended to the queue. -/
def walk : List Node → List Node
  | [] => []
  | n :: rest => n :: walk (rest ++ children n)
termination_by l => sizeList l
decreasing_by
  simp [sizeList_append, sizeList]
  have h := nodeSize_eq n
  omega

theorem subnodes_eq (n : Node) : subnodes n = n :: subnodesList (children n) := by
  cases n <;> simp [subnodes, children]

theorem subnodesList_append (a b : List Node) :
    subnodesList (a ++ b) = subnodesList a ++ subnodesList b := by
  induction a with
  | nil => simp [subnodesList]
  | cons n t ih => simp [subnodesList, ih]

theorem subnodesList_singleton (n : Node) : subnodesList [n] = subnodes n := by
  simp [subnodesList]

/-- The breadth-first walk yields exactly the nodes of the subtrees in the
queue, in some order. -/
theorem walk_perm (l : List Node) : List.Perm (walk l) (subnodesList l) := by
  induction l using walk.induct with
  | case1 => simp [walk, subnodesList]
  | case2 n rest ih =>
    rw [walk]
    have h1 : subnodesList (n :: rest) =
        n :: (subnodesList (children n) ++ subnodesList rest) := by
      simp [subnodesList, subnodes_eq n]
    rw [h1]
    refine List.Perm.trans (List.Perm.cons n ih) ?_
    rw [subnodesList_append]
    exact List.Perm.cons n List.perm_append_comm

theorem mem_walk_iff (l : List Node) (m : Node) : m ∈ walk l ↔ m ∈ subnodesList l :=
  (walk_perm l).mem_iff

theorem walk_map_sum (f : Node → Int) (l : List Node) :
    ((walk l).map f).sum = ((subnodesList l).map f).sum :=
  List.Perm.sum_eq ((walk_perm l).map f)

/-- Contribution one walked node adds to the running complexity score
(the loop body of `PythonAnalyzer._calculate_complexity`). -/
def contrib : Node → Int
  | .ifStmt _ => 1
  | .whileStmt _ => 1
  | .forStmt _ => 1
  | .exceptHandler _ => 1
  | .boolOp values => (values.length : Int) - 1
  | _ => 0

/-- `PythonAnalyzer._calculate_complexity`: start at 1 and add the
contribution of every node `ast.walk` yields from the function node. -/
def calculate_complexity (node : Node) : Int :=
  1 + ((walk [node]).map contrib).sum

/-- A conditional, loop, or exception-handler node. -/
def isDecisionNode : Node → Bool
  | .ifStmt _ => true
  | .whileStmt _ => true
  | .forStmt _ => true
  | .exceptHandler _ => true
  | _ => false

/-- A boolean-combination node. -/
def isBoolOpNode : Node → Bool
  | .boolOp _ => true
  | _ => false

/-- Spec-side definition: the number of conditional, loop, or
exception-handler nodes in the subtree of `n`. -/
def specDecisionCount (n : Node) : Nat := ((subnodes n).filter isDecisionNode).length

/-- `k - 1` for a boolean combination of `k` operands, `0` elsewhere. -/
def boolExcess : Node → Nat
  | .boolOp values => values.length - 1
  | _ => 0

/-- Spec-side definition: the sum of `k - 1` over every boolean combination
of `k` operands in the subtree of `n`. -/
def specBoolExcess (n : Node) : Nat := ((subnodes n).map boolExcess).sum

/-- Invariant `ast.parse` guarantees for one node: a boolean combination has
at least two operands. -/
def wfOk : Node → Bool
  | .boolOp values => decide (2 ≤ values.length)
  | _ => true

/-- Parser invariant for a whole subtree. -/
def WfNode (n : Node) : Bool := (subnodes n).all wfOk

theorem contrib_nonneg (m : Node) (h : wfOk m = true) : 0 ≤ contrib m := by
  cases m <;> simp_all [contrib, wfOk]
  omega

theorem sum_contrib_eq (L : List Node) (h : ∀ m ∈ L, wfOk m = true) :
    (L.map contrib).sum =
      ((L.filter isDecisionNode).length : Int) + ((L.map boolExcess).sum : Int) := by
  induction L with
  | nil => simp
  | cons m t ih =>
    have hm := h m (List.mem_cons_self m t)
    have ht : ∀ x ∈ t, wfOk x = true := fun x hx => h x (List.mem_cons_of_mem m hx)
    cases m <;>
      simp_all [contrib, isDecisionNode, boolExcess, wfOk, List.filter, ih ht] <;>
      omega

/-- Whitespace characters of the regex whitespace class, ASCII range
(also what `str.strip` removes on ASCII text). -/
def isPySpace (c : Char) : Bool :=
  c == ' ' || c == '\t' || c == '\n' || c == '\r' || c == '\x0b' || c == '\x0c'

/-- Does `cs` start with the pattern characters, compared exactly? -/
def startsWithChars : List Char → List Char → Bool
  | [], _ => true
  | _ :: _, [] => false
  | p :: ps, c :: cs => p == c && startsWithChars ps cs

/-- Does `cs` start with the pattern characters, compared case-insensitively? -/
def startsWithCaseless : List Char → List Char → Bool
  | [], _ => true
  | _ :: _, [] => false
  | p :: ps, c :: cs => p.toLower == c.toLower && startsWithCaseless ps cs

/-- Does `pat` occur as a contiguous run anywhere in `cs`? -/
def containsChars (pat : List Char) : List Char → Bool
  | [] => pat.isEmpty
  | c :: cs => startsWithChars pat (c :: cs) || containsChars pat cs

/-- Substring test on strings (Python's `in` operator on `str`). -/
def containsSub (pat s : String) : Bool := containsChars pat.data s.data

/-- After the `#` of a candidate match: skip regex whitespace, then one of
the pending-task words, case-insensitively. -/
def pendingTail (cs : List Char) : Bool :=
  let rest := cs.dropWhile isPySpace
  startsWithCaseless "TODO".data rest || startsWithCaseless "FIXME".data rest ||
    startsWithCaseless "XXX".data rest || startsWithCaseless "HACK".data rest

/-- `re.search` of the pending-task marker pattern over one line: a `#`
followed by optional whitespace and a marker word, anywhere in the line. -/
def hasPendingMarker : List Char → Bool
  | [] => false
  | c :: cs => (c == '#' && pendingTail cs) || hasPendingMarker cs

/-- A match of the bare-except pattern starting at the head of `cs`:
`except`, optional whitespace, then a colon. -/
def bareExceptHead (cs : List Char) : Bool :=
  startsWithChars "except".data cs &&
    startsWithChars ":".data ((cs.drop 6).dropWhile isPySpace)

/-- `re.search` of the bare-except pattern over one line. -/
def hasBareExcept : List Char → Bool
  | [] => false
  | c :: cs => bareExceptHead (c :: cs) || hasBareExcept cs

/-- The anchored print-call pattern: leading whitespace, `print`, optional
whitespace, an opening parenthesis. -/
def printAtStart (cs : List Char) : Bool :=
  let afterWs := cs.dropWhile isPySpace
  startsWithChars "print".data afterWs &&
    startsWithChars "(".data ((afterWs.drop 5).dropWhile isPySpace)

/-- Python's `content.split("\n")` on the character list of the content. -/
def splitLines : List Char → List (List Char)
  | [] => [[]]
  | c :: rest =>
    match splitLines rest with
    | [] => [[c]]
    | l :: ls => if c == '\n' then [] :: l :: ls else (c :: l) :: ls

/-- A blank line: `not line.strip()`. -/
def isBlankLine (cs : List Char) : Bool := cs.all isPySpace

/-- A comment line: `line.strip().startswith("#")`. -/
def isCommentLine (cs : List Char) : Bool :=
  startsWithChars "#".data (cs.dropWhile isPySpace)

/-- The `CodeIssue` dataclass. -/
structure CodeIssue where
  file : String
  line : Nat
  issue_type : String
  severity : String
  message : String
  suggestion : String
deriving DecidableEq, Repr

/-- The `AnalysisResult` dataclass; `metrics` keeps the dict entries in
insertion order. -/
structure AnalysisResult where
  file_path : String
  issues : List CodeIssue
  metrics : List (String × Nat)
deriving DecidableEq, Repr

/-- `core/config.py`: threshold on a function's line span. -/
def MAX_FUNCTION_LENGTH : Nat := 50

/-- `core/config.py`: threshold on cyclomatic complexity. -/
def MAX_COMPLEXITY : Int := 10

/-- The measured line span of a function:
`node.end_lineno - node.lineno + 1 if node.end_lineno else 0`
(`None` and `0` are both falsy in the conditional). -/
def func_lines_of (lineno : Nat) (end_lineno : Option Nat) : Int :=
  match end_lineno with
  | some e => if e ≠ 0 then (e : Int) - (lineno : Int) + 1 else 0
  | none => 0

/-- Truthiness of `ast.get_docstring(node)`: false both when there is no
docstring and when it is the empty string. -/
def docstringTruthy : Option String → Bool
  | none => false
  | some s => !s.isEmpty

/-- Is the node an `ast.FunctionDef`? -/
def isFunctionDefB : Node → Bool
  | .functionDef .. => true
  | _ => false

/-- Is the node an `ast.ClassDef`? -/
def isClassDefB : Node → Bool
  | .classDef .. => true
  | _ => false

/-- The issues the rules of `_analyze_functions` emit for one walked node
(nothing unless the node is a `FunctionDef`), in source order: length,
docstring, parameter count, complexity. -/
def func_issues (file : String) (n : Node) : List CodeIssue :=
  match n with
  | .functionDef name lineno end_lineno args ds body =>
    (if func_lines_of lineno end_lineno > (MAX_FUNCTION_LENGTH : Int) then
      [⟨file, lineno, "LONG_FUNCTION", "MEDIUM",
        "Function \x27" ++ name ++ "\x27 has " ++ toString (func_lines_of lineno end_lineno) ++
          " lines (max: " ++ toString MAX_FUNCTION_LENGTH ++ ")",
        "Consider breaking this function into smaller, focused functions"⟩]
     else []) ++
    (if !docstringTruthy ds then
      [⟨file, lineno, "MISSING_DOCSTRING", "LOW",
        "Function \x27" ++ name ++ "\x27 lacks a docstring",
        "Add a docstring describing the function\x27s purpose and parameters"⟩]
     else []) ++
    (if args.args > 5 then
      [⟨file, lineno, "TOO_MANY_PARAMETERS", "MEDIUM",
        "Function \x27" ++ name ++ "\x27 has " ++ toString args.args ++ " parameters",
        "Consider using a configuration object or dataclass to group parameters"⟩]
     else []) ++
    (if calculate_complexity (.functionDef name lineno end_lineno args ds body) >
        MAX_COMPLEXITY then
      [⟨file, lineno, "HIGH_COMPLEXITY", "HIGH",
        "Function \x27" ++ name ++ "\x27 has complexity " ++
          toString (calculate_complexity (.functionDef name lineno end_lineno args ds body)) ++
          " (max: " ++ toString MAX_COMPLEXITY ++ ")",
        "Reduce complexity by extracting conditions into separate functions"⟩]
     else [])
  | _ => []

/-- `_analyze_functions`: walk the whole tree, apply the function rules to
every node (only `FunctionDef` nodes emit anything). -/
def analyze_functions (file : String) (tree : Node) : List CodeIssue :=
  (walk [tree]).flatMap (func_issues file)

/-- The issues the rules of `_analyze_classes` emit for one walked node,
in source order: docstring, method count over the direct body statements. -/
def class_issues (file : String) (n : Node) : List CodeIssue :=
  match n with
  | .classDef name lineno ds body =>
    (if !docstringTruthy ds then
      [⟨file, lineno, "MISSING_DOCSTRING", "LOW",
        "Class \x27" ++ name ++ "\x27 lacks a docstring",
        "Add a docstring describing the class\x27s purpose"⟩]
     else []) ++
    (if (body.filter isFunctionDefB).length > 20 then
      [⟨file, lineno, "LARGE_CLASS", "MEDIUM",
        "Class \x27" ++ name ++ "\x27 has " ++
          toString (body.filter isFunctionDefB).length ++ " methods",
        "Consider splitting into smaller, focused classes (Single Responsibility)"⟩]
     else [])
  | _ => []

/-- `_analyze_classes`: walk the whole tree, apply the class rules to every
node. -/
def analyze_classes (file : String) (tree : Node) : List CodeIssue :=
  (walk [tree]).flatMap (class_issues file)

/-- The lexical rules of `_check_common_issues` on one line (1-indexed line
number `i`), in source order: length, pending marker, bare except, print. -/
def line_issues (file : String) (i : Nat) (line : List Char) : List CodeIssue :=
  (if line.length > 120 then
    [⟨file, i, "LINE_TOO_LONG", "LOW",
      "Line exceeds 120 characters (" ++ toString line.length ++ " chars)",
      "Break the line into multiple lines for better readability"⟩]
   else []) ++
  (if hasPendingMarker line then
    [⟨file, i, "PENDING_TASK", "LOW", "Found pending task marker",
      "Address or track this task in your issue tracker"⟩]
   else []) ++
  (if hasBareExcept line then
    [⟨file, i, "BARE_EXCEPT", "HIGH", "Bare except clause catches all exceptions",
      "Specify the exception type(s) to catch"⟩]
   else []) ++
  (if printAtStart line && !containsChars "# noqa".data line then
    [⟨file, i, "PRINT_STATEMENT", "LOW", "Using print() instead of logging",
      "Consider using the logging module for better control"⟩]
   else [])

/-- The `enumerate(lines, 1)` loop of `_check_common_issues`. -/
def check_lines (file : String) : Nat → List (List Char) → List CodeIssue
  | _, [] => []
  | i, l :: rest => line_issues file i l ++ check_lines file (i + 1) rest

/-- `_check_common_issues` on the full file content. -/
def check_common_issues (file : String) (content : String) : List CodeIssue :=
  check_lines file 1 (splitLines content.data)

/-- Outcome of the external parse step (`ast.parse`): a tree, or a
`SyntaxError` with message and optional reported line. -/
inductive ParseOutcome where
  | syntaxError (msg : String) (lineno : Option Nat)
  | parsed (tree : Node)

/-- `PythonAnalyzer.analyze` on a file whose content was read as `content`
and parsed with outcome `outcome`. -/
def analyze (file_path : String) (content : String) (outcome : ParseOutcome) :
    AnalysisResult :=
  match outcome with
  | .syntaxError msg lineno =>
    { file_path := file_path
      issues := [⟨file_path, lineno.getD 0, "SYNTAX_ERROR", "HIGH",
        "Syntax error: " ++ msg, "Fix the syntax error before proceeding"⟩]
      metrics := [] }
  | .parsed tree =>
    let lines := splitLines content.data
    { file_path := file_path
      issues := analyze_functions file_path tree ++ analyze_classes file_path tree ++
        check_common_issues file_path content
      metrics := [("total_lines", lines.length),
        ("blank_lines", (lines.filter isBlankLine).length),
        ("comment_lines", (lines.filter isCommentLine).length)] }

/-- What happens when the walker touches one file: either the read raises a
non-SyntaxError exception, or the content is read and parsed with some
outcome. -/
inductive FileOutcome where
  | readError (msg : String)
  | readOk (content : String) (parse : ParseOutcome)

/-- One file of the enumeration `path.rglob` yields, with its `path.suffix`
and whether `path.exists()` holds when the walker visits it. -/
structure FsFile where
  path : String
  suffix : String
  file_exists : Bool
  outcome : FileOutcome

/-- The path substrings `analyze_path` skips: virtual environments, caches,
version control, dependency directories. -/
def skip_markers : List String := ["venv", "__pycache__", ".git", "node_modules"]

/-- The keys of `CodeAnalyzer.analyzers`: only `.py` has an analyzer. -/
def analyzer_suffixes : List String := [".py"]

/-- `CodeAnalyzer.analyze_file`: `none` when the file is missing or has no
registered analyzer; a read exception propagates as `Except.error`; only a
`SyntaxError` is caught inside `analyze`. -/
def analyze_file (f : FsFile) : Except String (Option AnalysisResult) :=
  if !f.file_exists then .ok none
  else if !analyzer_suffixes.contains f.suffix then .ok none
  else
    match f.outcome with
    | .readError msg => .error msg
    | .readOk content parse => .ok (some (analyze f.path content parse))

/-- The directory branch of `CodeAnalyzer.analyze_path`: iterate over the
`rglob` enumeration, skip paths containing a skip marker, collect the
results `analyze_file` returns; an uncaught exception aborts the whole
loop, dropping every result. -/
def analyze_path_dir : List FsFile → Except String (List AnalysisResult)
  | [] => .ok []
  | f :: rest =>
    if skip_markers.any (fun s => containsSub s f.path) then analyze_path_dir rest
    else
      match analyze_file f with
      | .error e => .error e
      | .ok none => analyze_path_dir rest
      | .ok (some r) =>
        match analyze_path_dir rest with
        | .error e => .error e
        | .ok rs => .ok (r :: rs)

/-- A file the directory walk actually analyzes: not skipped, existing, with
a registered analyzer. -/
def eligibleFile (f : FsFile) : Bool :=
  !(skip_markers.any fun s => containsSub s f.path) && f.file_exists &&
    analyzer_suffixes.contains f.suffix

/-- The file read raises no exception. -/
def readable (f : FsFile) : Bool :=
  match f.outcome with
  | .readOk _ _ => true
  | .readError _ => false

/-- The result an eligible, readable file contributes to the walk. -/
def result_of_file (f : FsFile) : AnalysisResult :=
  match f.outcome with
  | .readOk content parse => analyze f.path content parse
  | .readError _ => ⟨f.path, [], []⟩

/-- Spec-side definition: the fixed kind-to-severity mapping of the spec. -/
def severityOf (kind : String) : String :=
  if kind == "SYNTAX_ERROR" || kind == "HIGH_COMPLEXITY" || kind == "BARE_EXCEPT" then
    "HIGH"
  else if kind == "LONG_FUNCTION" || kind == "TOO_MANY_PARAMETERS" ||
      kind == "LARGE_CLASS" then
    "MEDIUM"
  else "LOW"

/-- Position of a lexical rule in the per-line source order. -/
def lexRuleIndex (kind : String) : Nat :=
  if kind == "LINE_TOO_LONG" then 0
  else if kind == "PENDING_TASK" then 1
  else if kind == "BARE_EXCEPT" then 2
  else if kind == "PRINT_STATEMENT" then 3
  else 4

/-- Position of a function rule in the per-function source order. -/
def funcRuleIndex (kind : String) : Nat :=
  if kind == "LONG_FUNCTION" then 0
  else if kind == "MISSING_DOCSTRING" then 1
  else if kind == "TOO_MANY_PARAMETERS" then 2
  else if kind == "HIGH_COMPLEXITY" then 3
  else 4

/-- Order of lexical issues: increasing line number, per-line rule order on
the same line. -/
def lexOrder (a b : CodeIssue) : Prop :=
  a.line < b.line ∨ (a.line = b.line ∧ lexRuleIndex a.issue_type ≤ lexRuleIndex b.issue_type)

/-- Order of the function rules inside one function's issue block. -/
def funcOrder (a b : CodeIssue) : Prop :=
  funcRuleIndex a.issue_type ≤ funcRuleIndex b.issue_type

theorem ite_singleton_sublist {α} (c : Prop) [Decidable c] (x : α) :
    List.Sublist (if c then [x] else []) [x] := by
  split
  · exact List.Sublist.refl _
  · exact List.nil_sublist _

theorem ite_append_sublist {α} (c : Prop) [Decidable c] (x : α) (l m : List α)
    (h : List.Sublist l m) : List.Sublist ((if c then [x] else []) ++ l) (x :: m) := by
  split
  · exact List.Sublist.cons₂ x h
  · exact List.Sublist.cons x h

/-- The block a `FunctionDef` contributes is a sublist of the four function
rule issues in source order. -/
theorem func_issues_sublist (fp name : String) (lineno : Nat) (e : Option Nat)
    (a : Arguments) (ds : Option String) (body : List Node) :
    List.Sublist (func_issues fp (.functionDef name lineno e a ds body))
      [⟨fp, lineno, "LONG_FUNCTION", "MEDIUM",
        "Function \x27" ++ name ++ "\x27 has " ++ toString (func_lines_of lineno e) ++
          " lines (max: " ++ toString MAX_FUNCTION_LENGTH ++ ")",
        "Consider breaking this function into smaller, focused functions"⟩,
       ⟨fp, lineno, "MISSING_DOCSTRING", "LOW",
        "Function \x27" ++ name ++ "\x27 lacks a docstring",
        "Add a docstring describing the function\x27s purpose and parameters"⟩,
       ⟨fp, lineno, "TOO_MANY_PARAMETERS", "MEDIUM",
        "Function \x27" ++ name ++ "\x27 has " ++ toString a.args ++ " parameters",
        "Consider using a configuration object or dataclass to group parameters"⟩,
       ⟨fp, lineno, "HIGH_COMPLEXITY", "HIGH",
        "Function \x27" ++ name ++ "\x27 has complexity " ++
          toString (calculate_complexity (.functionDef name lineno e a ds body)) ++
          " (max: " ++ toString MAX_COMPLEXITY ++ ")",
        "Reduce complexity by extracting conditions into separate functions"⟩] := by
  simp only [func_issues, List.append_assoc]
  apply ite_append_sublist
  apply ite_append_sublist
  apply ite_append_sublist
  apply ite_singleton_sublist

/-- The block a `ClassDef` contributes is a sublist of the two class rule
issues in source order. -/
theorem class_issues_sublist (fp name : String) (lineno : Nat)
    (ds : Option String) (body : List Node) :
    List.Sublist (class_issues fp (.classDef name lineno ds body))
      [⟨fp, lineno, "MISSING_DOCSTRING", "LOW",
        "Class \x27" ++ name ++ "\x27 lacks a docstring",
        "Add a docstring describing the class\x27s purpose"⟩,
       ⟨fp, lineno, "LARGE_CLASS", "MEDIUM",
        "Class \x27" ++ name ++ "\x27 has " ++
          toString (body.filter isFunctionDefB).length ++ " methods",
        "Consider splitting into smaller, focused classes (Single Responsibility)"⟩] := by
  simp only [class_issues, List.append_assoc]
  apply ite_append_sublist
  apply ite_singleton_sublist

/-- The issues of one line form a sublist of the four lexical rule issues in
source order. -/
theorem line_issues_sublist (fp : String) (i : Nat) (l : List Char) :
    List.Sublist (line_issues fp i l)
      [⟨fp, i, "LINE_TOO_LONG", "LOW",
        "Line exceeds 120 characters (" ++ toString l.length ++ " chars)",
        "Break the line into multiple lines for better readability"⟩,
       ⟨fp, i, "PENDING_TASK", "LOW", "Found pending task marker",
        "Address or track this task in your issue tracker"⟩,
       ⟨fp, i, "BARE_EXCEPT", "HIGH", "Bare except clause catches all exceptions",
        "Specify the exception type(s) to catch"⟩,
       ⟨fp, i, "PRINT_STATEMENT", "LOW", "Using print() instead of logging",
        "Consider using the logging module for better control"⟩] := by
  simp only [line_issues, List.append_assoc]
  apply ite_append_sublist
  apply ite_append_sublist
  apply ite_append_sublist
  apply ite_singleton_sublist

/-- Any issue of a function block has the fixed severity of its kind and one
of the four function rule kinds. -/
theorem mem_func_issues (fp : String) (n : Node) (x : CodeIssue)
    (hx : x ∈ func_issues fp n) :
    x.severity = severityOf x.issue_type ∧ funcRuleIndex x.issue_type < 4 := by
  cases n
  case functionDef name lineno e a ds body =>
    have h := (func_issues_sublist fp name lineno e a ds body).subset hx
    simp only [List.mem_cons, List.not_mem_nil, or_false] at h
    rcases h with h | h | h | h <;> subst h <;>
      exact ⟨by simp [severityOf], by simp [funcRuleIndex]⟩
  all_goals simp [func_issues] at hx

/-- Any issue of a class block has the fixed severity of its kind and one of
the two class rule kinds. -/
theorem mem_class_issues (fp : String) (n : Node) (x : CodeIssue)
    (hx : x ∈ class_issues fp n) :
    x.severity = severityOf x.issue_type ∧
      (x.issue_type = "MISSING_DOCSTRING" ∨ x.issue_type = "LARGE_CLASS") := by
  cases n
  case classDef name lineno ds body =>
    have h := (class_issues_sublist fp name lineno ds body).subset hx
    simp only [List.mem_cons, List.not_mem_nil, or_false] at h
    rcases h with h | h <;> subst h
    · exact ⟨by simp [severityOf], Or.inl rfl⟩
    · exact ⟨by simp [severityOf], Or.inr rfl⟩
  all_goals simp [class_issues] at hx

/-- Any issue of one line carries that line number, the fixed severity of
its kind, and one of the four lexical rule kinds. -/
theorem mem_line_issues (fp : String) (i : Nat) (l : List Char) (x : CodeIssue)
    (hx : x ∈ line_issues fp i l) :
    x.line = i ∧ x.severity = severityOf x.issue_type ∧ lexRuleIndex x.issue_type < 4 := by
  have h := (line_issues_sublist fp i l).subset hx
  simp only [List.mem_cons, List.not_mem_nil, or_false] at h
  rcases h with h | h | h | h <;> subst h <;>
    exact ⟨rfl, by simp [severityOf], by simp [lexRuleIndex]⟩

/-- Any issue of the lexical scan from starting line `i` sits on a line at
or after `i`, with the fixed severity of its lexical kind. -/
theorem mem_check_lines (fp : String) :
    ∀ (ls : List (List Char)) (i : Nat) (x : CodeIssue), x ∈ check_lines fp i ls →
      i ≤ x.line ∧ x.severity = severityOf x.issue_type ∧ lexRuleIndex x.issue_type < 4 := by
  intro ls
  induction ls with
  | nil => intro i x hx; simp [check_lines] at hx
  | cons l rest ih =>
    intro i x hx
    rw [check_lines] at hx
    rcases List.mem_append.mp hx with h | h
    · have hm := mem_line_issues fp i l x h
      exact ⟨le_of_eq hm.1.symm, hm.2⟩
    · have hm := ih (i + 1) x h
      exact ⟨by omega, hm.2⟩

/-- The four rules of a function block fire in source order. -/
theorem pairwise_func_issues (fp : String) (n : Node) :
    (func_issues fp n).Pairwise funcOrder := by
  cases n
  case functionDef name lineno e a ds body =>
    apply List.Pairwise.sublist (func_issues_sublist fp name lineno e a ds body)
    simp [List.pairwise_cons, funcOrder, funcRuleIndex]
  all_goals simp [func_issues]

/-- The issues of one line appear in per-line rule source order. -/
theorem pairwise_line_issues (fp : String) (i : Nat) (l : List Char) :
    (line_issues fp i l).Pairwise lexOrder := by
  apply List.Pairwise.sublist (line_issues_sublist fp i l)
  simp [List.pairwise_cons, lexOrder, lexRuleIndex]

/-- The lexical scan lists issues in increasing line order, rule order
within one line. -/
theorem pairwise_check_lines (fp : String) :
    ∀ (ls : List (List Char)) (i : Nat), (check_lines fp i ls).Pairwise lexOrder := by
  intro ls
  induction ls with
  | nil => intro i; simp [check_lines]
  | cons l rest ih =>
    intro i
    rw [check_lines]
    refine List.pairwise_append.mpr ⟨pairwise_line_issues fp i l, ih (i + 1), ?_⟩
    intro a ha b hb
    have ha' := (mem_line_issues fp i l a ha).1
    have hb' := (mem_check_lines fp rest (i + 1) b hb).1
    exact Or.inl (by omega)

/-- One list occurs contiguously inside another. -/
def SegmentOf (a b : List Node) : Prop := ∃ u v, b = u ++ a ++ v

theorem segment_aux : ∀ (k : Nat) (L : List Node), sizeList L ≤ k →
    ∀ g, g ∈ subnodesList L → SegmentOf (subnodes g) (subnodesList L) := by
  intro k
  induction k with
  | zero =>
    intro L hL g hg
    cases L with
    | nil => simp [subnodesList] at hg
    | cons n t =>
      exfalso
      have h := nodeSize_eq n
      simp [sizeList] at hL
      omega
  | succ k ih =>
    intro L hL g hg
    cases L with
    | nil => simp [subnodesList] at hg
    | cons n t =>
      simp only [subnodesList] at hg ⊢
      rcases List.mem_append.mp hg with h1 | h2
      · rw [subnodes_eq] at h1
        rcases List.mem_cons.mp h1 with rfl | h1'
        · exact ⟨[], subnodesList t, by simp⟩
        · have hsz : sizeList (children n) ≤ k := by
            have h := nodeSize_eq n
            simp [sizeList] at hL
            omega
          obtain ⟨u, v, huv⟩ := ih (children n) hsz g h1'
          refine ⟨n :: u, v ++ subnodesList t, ?_⟩
          rw [subnodes_eq n, huv]
          simp
      · have hsz : sizeList t ≤ k := by
          have h := nodeSize_eq n
          simp [sizeList] at hL
          omega
        obtain ⟨u, v, huv⟩ := ih t hsz g h2
        refine ⟨subnodes n ++ u, v, ?_⟩
        rw [huv]
        simp

/-- The node listing of a subtree node is a contiguous segment of the node
listing of the whole tree. -/
theorem subnodes_segment (n g : Node) (h : g ∈ subnodes n) :
    SegmentOf (subnodes g) (subnodes n) := by
  have hs := segment_aux (sizeList [n]) [n] le_rfl g (by rwa [subnodesList_singleton])
  rwa [subnodesList_singleton] at hs

/-- C1: for every function node, the computed cyclomatic complexity equals
1, plus one per conditional, loop, or exception-handler node in the
function's subtree, plus `k - 1` per boolean combination of `k` operands;
consequently it is at least 1, and it is exactly 1 for a function with no
branch, loop, handler, or boolean-combination node. -/
theorem claim_C1 (n : Node) (_hf : isFunctionDefB n = true) (hwf : WfNode n = true) :
    calculate_complexity n = 1 + (specDecisionCount n : Int) + (specBoolExcess n : Int) ∧
    1 ≤ calculate_complexity n ∧
    ((∀ m ∈ subnodes n, isDecisionNode m = false ∧ isBoolOpNode m = false) →
      calculate_complexity n = 1) := by
  have hwf' : ∀ m ∈ subnodes n, wfOk m = true := fun m hm =>
    List.all_eq_true.mp hwf m hm
  have hc : calculate_complexity n = 1 + ((subnodes n).map contrib).sum := by
    rw [calculate_complexity, walk_map_sum, subnodesList_singleton]
  have hs := sum_contrib_eq (subnodes n) hwf'
  refine ⟨?_, ?_, ?_⟩
  · rw [hc, hs]
    simp only [specDecisionCount, specBoolExcess]
    ring
  · rw [hc, hs]
    omega
  · intro hnone
    rw [hc]
    have hz : ∀ x ∈ (subnodes n).map contrib, x = 0 := by
      intro x hx
      obtain ⟨m, hm, rfl⟩ := List.mem_map.mp hx
      have hd := hnone m hm
      cases m <;> simp_all [contrib, isDecisionNode, isBoolOpNode]
    rw [List.sum_eq_zero hz]
    ring

/-- Witness for C1: a function with one `if` and one two-operand boolean
combination satisfies the formula (complexity 3), and the hypotheses hold. -/
theorem claim_C1_witness :
    isFunctionDefB (Node.functionDef "f" 1 (some 3) ⟨0, 0, 0, false, false⟩ none
      [Node.ifStmt [], Node.boolOp [Node.other [], Node.other []]]) = true ∧
    WfNode (Node.functionDef "f" 1 (some 3) ⟨0, 0, 0, false, false⟩ none
      [Node.ifStmt [], Node.boolOp [Node.other [], Node.other []]]) = true ∧
    (calculate_complexity (Node.functionDef "f" 1 (some 3) ⟨0, 0, 0, false, false⟩ none
        [Node.ifStmt [], Node.boolOp [Node.other [], Node.other []]]) =
      1 + (specDecisionCount (Node.functionDef "f" 1 (some 3) ⟨0, 0, 0, false, false⟩ none
        [Node.ifStmt [], Node.boolOp [Node.other [], Node.other []]]) : Int) +
      (specBoolExcess (Node.functionDef "f" 1 (some 3) ⟨0, 0, 0, false, false⟩ none
        [Node.ifStmt [], Node.boolOp [Node.other [], Node.other []]]) : Int) ∧
    1 ≤ calculate_complexity (Node.functionDef "f" 1 (some 3) ⟨0, 0, 0, false, false⟩ none
        [Node.ifStmt [], Node.boolOp [Node.other [], Node.other []]]) ∧
    ((∀ m ∈ subnodes (Node.functionDef "f" 1 (some 3) ⟨0, 0, 0, false, false⟩ none
        [Node.ifStmt [], Node.boolOp [Node.other [], Node.other []]]),
        isDecisionNode m = false ∧ isBoolOpNode m = false) →
      calculate_complexity (Node.functionDef "f" 1 (some 3) ⟨0, 0, 0, false, false⟩ none
        [Node.ifStmt [], Node.boolOp [Node.other [], Node.other []]]) = 1)) :=
  ⟨by decide, by decide, claim_C1 _ (by decide) (by decide)⟩

/-- C8: the complexity of a function counts the decision nodes of nested
function and class bodies too: the score is 1 plus the contribution of the
entire recursive subtree, and the independently computed score of any
nested function is at most that of the enclosing function. -/
theorem claim_C8 (f g : Node) (hwf : WfNode f = true) (hg : g ∈ subnodes f)
    (_hgf : isFunctionDefB g = true) :
    calculate_complexity f = 1 + ((subnodes f).map contrib).sum ∧
    calculate_complexity g ≤ calculate_complexity f := by
  have hcf : calculate_complexity f = 1 + ((subnodes f).map contrib).sum := by
    rw [calculate_complexity, walk_map_sum, subnodesList_singleton]
  have hcg : calculate_complexity g = 1 + ((subnodes g).map contrib).sum := by
    rw [calculate_complexity, walk_map_sum, subnodesList_singleton]
  obtain ⟨u, v, huv⟩ := subnodes_segment f g hg
  have hnn : ∀ m ∈ subnodes f, 0 ≤ contrib m := fun m hm =>
    contrib_nonneg m (List.all_eq_true.mp hwf m hm)
  refine ⟨hcf, ?_⟩
  rw [hcf, hcg, huv]
  have hu : 0 ≤ (u.map contrib).sum := by
    refine List.sum_nonneg ?_
    intro x hx
    obtain ⟨m, hm, rfl⟩ := List.mem_map.mp hx
    exact hnn m (by rw [huv]; simp [hm])
  have hv : 0 ≤ (v.map contrib).sum := by
    refine List.sum_nonneg ?_
    intro x hx
    obtain ⟨m, hm, rfl⟩ := List.mem_map.mp hx
    exact hnn m (by rw [huv]; simp [hm])
  simp only [List.map_append, List.sum_append]
  omega

/-- Witness for C8: a function `f` whose body is a nested function `g`
containing one `if`; the `if` counts in both scores, which are both 2. -/
theorem claim_C8_witness :
    (calculate_complexity (Node.functionDef "f" 1 (some 4) ⟨0, 0, 0, false, false⟩ none
        [Node.functionDef "g" 2 (some 4) ⟨0, 0, 0, false, false⟩ none [Node.ifStmt []]]) =
      1 + ((subnodes (Node.functionDef "f" 1 (some 4) ⟨0, 0, 0, false, false⟩ none
        [Node.functionDef "g" 2 (some 4) ⟨0, 0, 0, false, false⟩ none
          [Node.ifStmt []]])).map contrib).sum ∧
    calculate_complexity (Node.functionDef "g" 2 (some 4) ⟨0, 0, 0, false, false⟩ none
        [Node.ifStmt []]) ≤
      calculate_complexity (Node.functionDef "f" 1 (some 4) ⟨0, 0, 0, false, false⟩ none
        [Node.functionDef "g" 2 (some 4) ⟨0, 0, 0, false, false⟩ none [Node.ifStmt []]])) ∧
    calculate_complexity (Node.functionDef "g" 2 (some 4) ⟨0, 0, 0, false, false⟩ none
      [Node.ifStmt []]) = 2 ∧
    calculate_complexity (Node.functionDef "f" 1 (some 4) ⟨0, 0, 0, false, false⟩ none
      [Node.functionDef "g" 2 (some 4) ⟨0, 0, 0, false, false⟩ none [Node.ifStmt []]]) = 2 :=
  ⟨claim_C8 _ _ (by decide) (by simp [subnodes, subnodesList]) (by decide),
    by norm_num [calculate_complexity, walk, children, contrib],
    by norm_num [calculate_complexity, walk, children, contrib]⟩

/-- C2: on a parse failure, `analyze` returns exactly one issue, of kind
SYNTAX_ERROR with severity HIGH at the reported line (0 when none reported),
an empty metrics mapping, and nothing from any other rule. -/
theorem claim_C2 (fp content msg : String) (lineno : Option Nat) :
    (analyze fp content (.syntaxError msg lineno)).issues =
      [⟨fp, lineno.getD 0, "SYNTAX_ERROR", "HIGH", "Syntax error: " ++ msg,
        "Fix the syntax error before proceeding"⟩] ∧
    (analyze fp content (.syntaxError msg lineno)).metrics = [] ∧
    ∀ x ∈ (analyze fp content (.syntaxError msg lineno)).issues,
      x.issue_type = "SYNTAX_ERROR" ∧ x.severity = "HIGH" ∧ x.line = lineno.getD 0 := by
  refine ⟨rfl, rfl, ?_⟩
  intro x hx
  simp only [analyze, List.mem_singleton] at hx
  subst hx
  exact ⟨rfl, rfl, rfl⟩

/-- Witness for C2 at a concrete unparsable file. -/
theorem claim_C2_witness :
    (analyze "bad.py" "x ==" (.syntaxError "invalid syntax" (some 1))).issues =
      [⟨"bad.py", 1, "SYNTAX_ERROR", "HIGH", "Syntax error: " ++ "invalid syntax",
        "Fix the syntax error before proceeding"⟩] ∧
    (analyze "bad.py" "x ==" (.syntaxError "invalid syntax" (some 1))).metrics = [] :=
  ⟨(claim_C2 "bad.py" "x ==" "invalid syntax" (some 1)).1,
    (claim_C2 "bad.py" "x ==" "invalid syntax" (some 1)).2.1⟩

/-- C3: the traversal reaches every function and class declaration at any
nesting depth: each such node is in the walked node list, and the issues its
rules emit are part of the corresponding pass output. -/
theorem claim_C3 (fp : String) (tree m : Node) (hm : m ∈ subnodes tree)
    (_hdecl : (isFunctionDefB m || isClassDefB m) = true) :
    m ∈ walk [tree] ∧
    (∀ x ∈ func_issues fp m, x ∈ analyze_functions fp tree) ∧
    (∀ x ∈ class_issues fp m, x ∈ analyze_classes fp tree) := by
  have hw : m ∈ walk [tree] :=
    (mem_walk_iff [tree] m).mpr (by rwa [subnodesList_singleton])
  refine ⟨hw, ?_, ?_⟩
  · intro x hx
    show x ∈ (walk [tree]).flatMap (func_issues fp)
    exact List.mem_flatMap.mpr ⟨m, hw, hx⟩
  · intro x hx
    show x ∈ (walk [tree]).flatMap (class_issues fp)
    exact List.mem_flatMap.mpr ⟨m, hw, hx⟩

/-- Witness for C3: a class nested two function levels deep is reached by
the walk. -/
theorem claim_C3_witness :
    Node.classDef "C" 3 none [] ∈
      walk [Node.other [Node.functionDef "o" 1 (some 3) ⟨0, 0, 0, false, false⟩ none
        [Node.functionDef "i" 2 (some 3) ⟨0, 0, 0, false, false⟩ none
          [Node.classDef "C" 3 none []]]]] :=
  (claim_C3 "w.py"
    (Node.other [Node.functionDef "o" 1 (some 3) ⟨0, 0, 0, false, false⟩ none
      [Node.functionDef "i" 2 (some 3) ⟨0, 0, 0, false, false⟩ none
        [Node.classDef "C" 3 none []]]])
    (Node.classDef "C" 3 none [])
    (by simp [subnodes, subnodesList]) (by decide)).1

/-- C9: the parameter-count rule counts only the plain positional-or-keyword
parameters: with at most 5 of them, no TOO_MANY_PARAMETERS issue is emitted
whatever the other parameter groups declare. -/
theorem claim_C9 (fp name : String) (lineno : Nat) (e : Option Nat) (a : Arguments)
    (ds : Option String) (body : List Node) (h : a.args ≤ 5) :
    ∀ x ∈ func_issues fp (.functionDef name lineno e a ds body),
      x.issue_type ≠ "TOO_MANY_PARAMETERS" := by
  intro x hx
  simp only [func_issues] at hx
  have h5 : ¬ (a.args > 5) := by omega
  rw [if_neg h5] at hx
  split_ifs at hx <;> aesop

/-- Witness for C9: a function with 3 plain parameters, 4 positional-only,
7 keyword-only, `*args` and `**kwargs` never triggers the rule; here on the
issue block of its node, which is its missing-docstring issue alone. -/
theorem claim_C9_witness :
    (⟨"w.py", 1, "MISSING_DOCSTRING", "LOW",
        "Function \x27" ++ "f" ++ "\x27 lacks a docstring",
        "Add a docstring describing the function\x27s purpose and parameters"⟩ :
      CodeIssue).issue_type ≠ "TOO_MANY_PARAMETERS" :=
  claim_C9 "w.py" "f" 1 (some 1) ⟨4, 3, 7, true, true⟩ none [] (by decide) _
    (by norm_num [func_issues, func_lines_of, docstringTruthy, calculate_complexity,
      walk, children, contrib, MAX_FUNCTION_LENGTH, MAX_COMPLEXITY])

/-- C7: in every result of `analyze`, the severity of an issue is the fixed
function of its kind given by the spec mapping. -/
theorem claim_C7 (fp content : String) (outcome : ParseOutcome) :
    ∀ x ∈ (analyze fp content outcome).issues, x.severity = severityOf x.issue_type := by
  intro x hx
  cases outcome with
  | syntaxError msg lineno =>
    simp only [analyze, List.mem_singleton] at hx
    subst hx
    simp [severityOf]
  | parsed tree =>
    simp only [analyze] at hx
    rcases List.mem_append.mp hx with h12 | h3
    · rcases List.mem_append.mp h12 with h1 | h2
      · simp only [analyze_functions] at h1
        obtain ⟨n, _, hxn⟩ := List.mem_flatMap.mp h1
        exact (mem_func_issues fp n x hxn).1
      · simp only [analyze_classes] at h2
        obtain ⟨n, _, hxn⟩ := List.mem_flatMap.mp h2
        exact (mem_class_issues fp n x hxn).1
    · simp only [check_common_issues] at h3
      exact (mem_check_lines fp (splitLines content.data) 1 x h3).2.1

/-- Witness for C7 on the issue of a concrete syntax-error result. -/
theorem claim_C7_witness :
    (⟨"f.py", 3, "SYNTAX_ERROR", "HIGH", "Syntax error: " ++ "bad",
        "Fix the syntax error before proceeding"⟩ : CodeIssue).severity =
      severityOf (⟨"f.py", 3, "SYNTAX_ERROR", "HIGH", "Syntax error: " ++ "bad",
        "Fix the syntax error before proceeding"⟩ : CodeIssue).issue_type :=
  claim_C7 "f.py" "" (.syntaxError "bad" (some 3)) _ (by decide)

/-- C10: the issues of a successfully parsed file list all function-pass
issues first (one block per walked node, the four rules in source order),
then all class-pass issues, then the lexical issues in increasing line
order with the fixed per-line rule order. -/
theorem claim_C10 (fp content : String) (tree : Node) :
    (analyze fp content (.parsed tree)).issues =
      analyze_functions fp tree ++ analyze_classes fp tree ++
        check_common_issues fp content ∧
    analyze_functions fp tree = (walk [tree]).flatMap (func_issues fp) ∧
    (∀ n : Node, (func_issues fp n).Pairwise funcOrder) ∧
    (∀ x ∈ analyze_functions fp tree, funcRuleIndex x.issue_type < 4) ∧
    (∀ x ∈ analyze_classes fp tree,
      x.issue_type = "MISSING_DOCSTRING" ∨ x.issue_type = "LARGE_CLASS") ∧
    (check_common_issues fp content).Pairwise lexOrder := by
  refine ⟨rfl, rfl, pairwise_func_issues fp, ?_, ?_,
    pairwise_check_lines fp (splitLines content.data) 1⟩
  · intro x hx
    simp only [analyze_functions] at hx
    obtain ⟨n, _, hxn⟩ := List.mem_flatMap.mp hx
    exact (mem_func_issues fp n x hxn).2
  · intro x hx
    simp only [analyze_classes] at hx
    obtain ⟨n, _, hxn⟩ := List.mem_flatMap.mp hx
    exact (mem_class_issues fp n x hxn).2

/-- Witness for C10: the aggregation order on a concrete parsed file. -/
theorem claim_C10_witness :
    (analyze "w.py" "pass" (.parsed (Node.other []))).issues =
      analyze_functions "w.py" (Node.other []) ++
        analyze_classes "w.py" (Node.other []) ++
        check_common_issues "w.py" "pass" :=
  (claim_C10 "w.py" "pass" (Node.other [])).1

/-- A LINE_TOO_LONG issue reported on line `i`. -/
def isLtlAt (i : Nat) (x : CodeIssue) : Bool :=
  x.issue_type == "LINE_TOO_LONG" && x.line == i

theorem countP_line_issues_eq (fp : String) (i : Nat) (l : List Char) :
    (line_issues fp i l).countP (isLtlAt i) = if 120 < l.length then 1 else 0 := by
  unfold line_issues
  split_ifs <;>
    simp_all [List.countP_append, List.countP_cons, isLtlAt]

theorem countP_check_lines_zero (fp : String) :
    ∀ (ls : List (List Char)) (start k : Nat), k < start →
      (check_lines fp start ls).countP (isLtlAt k) = 0 := by
  intro ls
  induction ls with
  | nil => intro start k h; simp [check_lines]
  | cons l rest ih =>
    intro start k h
    rw [check_lines, List.countP_append]
    have h1 : (line_issues fp start l).countP (isLtlAt k) = 0 := by
      rw [List.countP_eq_zero]
      intro x hx
      have hl := (mem_line_issues fp start l x hx).1
      simp only [isLtlAt, Bool.and_eq_true, beq_iff_eq, not_and]
      intro _ h2
      omega
    rw [h1, ih (start + 1) k (by omega)]

theorem countP_check_lines_main (fp : String) :
    ∀ (pre : List (List Char)) (l : List Char) (post : List (List Char)) (start : Nat),
      (check_lines fp start (pre ++ l :: post)).countP (isLtlAt (start + pre.length)) =
        if 120 < l.length then 1 else 0 := by
  intro pre
  induction pre with
  | nil =>
    intro l post start
    rw [List.nil_append, check_lines, List.countP_append]
    simp only [List.length_nil, Nat.add_zero]
    rw [countP_line_issues_eq, countP_check_lines_zero fp post (start + 1) start (by omega)]
    omega
  | cons p pre ih =>
    intro l post start
    rw [List.cons_append, check_lines, List.countP_append]
    have hz : (line_issues fp start p).countP (isLtlAt (start + (p :: pre).length)) = 0 := by
      rw [List.countP_eq_zero]
      intro x hx
      have hl := (mem_line_issues fp start p x hx).1
      simp only [isLtlAt, Bool.and_eq_true, beq_iff_eq, not_and, List.length_cons]
      intro _ h2
      omega
    rw [hz]
    have hm := ih l post (start + 1)
    simp only [List.length_cons]
    rw [show start + (pre.length + 1) = (start + 1) + pre.length by omega]
    simpa using hm

/-- C5: for each 1-indexed line `i` of a parsed file, the length rule emits
exactly one LINE_TOO_LONG issue on line `i` when the line exceeds 120
characters and none otherwise, and every LINE_TOO_LONG issue has severity
LOW. -/
theorem claim_C5 (fp content : String) (i : Nat) (pre : List (List Char))
    (l : List Char) (post : List (List Char))
    (hsplit : splitLines content.data = pre ++ l :: post)
    (hi : i = pre.length + 1) :
    (check_common_issues fp content).countP (isLtlAt i) =
      (if 120 < l.length then 1 else 0) ∧
    ∀ x ∈ check_common_issues fp content,
      x.issue_type = "LINE_TOO_LONG" → x.severity = "LOW" := by
  constructor
  · rw [check_common_issues, hsplit, hi,
      show pre.length + 1 = 1 + pre.length by omega]
    exact countP_check_lines_main fp pre l post 1
  · intro x hx ht
    have hs := (mem_check_lines fp (splitLines content.data) 1 x hx).2.1
    rw [hs, ht]
    simp [severityOf]

/-- Witness for C5: a file whose single line has 121 characters gets exactly
one LINE_TOO_LONG issue on line 1. -/
theorem claim_C5_witness :
    (check_common_issues "w.py" (String.mk (List.replicate 121 'a'))).countP
      (isLtlAt 1) = 1 :=
  (claim_C5 "w.py" (String.mk (List.replicate 121 'a')) 1 [] (List.replicate 121 'a') []
    (by decide) rfl).1

theorem startsWithChars_self (p r : List Char) : startsWithChars p (p ++ r) = true := by
  induction p with
  | nil => simp [startsWithChars]
  | cons c cs ih => simp [startsWithChars, ih]

theorem containsChars_here (p b : List Char) : containsChars p (p ++ b) = true := by
  cases p with
  | nil => cases b <;> simp [containsChars, startsWithChars, List.isEmpty]
  | cons q qs =>
    rw [List.cons_append, containsChars]
    have h := startsWithChars_self (q :: qs) b
    rw [List.cons_append] at h
    simp [h]

theorem containsChars_skip (p b : List Char) (h : containsChars p b = true) :
    ∀ a : List Char, containsChars p (a ++ b) = true := by
  intro a
  induction a with
  | nil => simpa using h
  | cons c cs ih =>
    rw [List.cons_append, containsChars]
    simp [ih]

/-- A string occurring verbatim between two others is found by the
substring test. -/
theorem containsSub_of_parts (v x y : String) :
    containsSub v (x ++ v ++ y) = true := by
  rw [containsSub]
  have hd : (x ++ v ++ y).data = x.data ++ (v.data ++ y.data) := by
    rw [String.data_append, String.data_append, List.append_assoc]
  rw [hd]
  exact containsChars_skip _ _ (containsChars_here _ _) _

theorem startsWithChars_extend (p : List Char) :
    ∀ (s b : List Char), startsWithChars p s = true →
      startsWithChars p (s ++ b) = true := by
  induction p with
  | nil => intro s b _; simp [startsWithChars]
  | cons c cs ih =>
    intro s b h
    cases s with
    | nil => simp [startsWithChars] at h
    | cons d ds =>
      rw [startsWithChars, Bool.and_eq_true] at h
      rw [List.cons_append, startsWithChars, Bool.and_eq_true]
      exact ⟨h.1, ih ds b h.2⟩

theorem containsChars_extendR (p : List Char) :
    ∀ (a b : List Char), containsChars p a = true →
      containsChars p (a ++ b) = true := by
  intro a
  induction a with
  | nil =>
    intro b h
    rw [containsChars] at h
    have hp : p = [] := by
      cases p
      · rfl
      · simp [List.isEmpty] at h
    subst hp
    cases b <;> simp [containsChars, startsWithChars, List.isEmpty]
  | cons c cs ih =>
    intro b h
    rw [containsChars, Bool.or_eq_true] at h
    rw [List.cons_append, containsChars, Bool.or_eq_true]
    rcases h with h | h
    · left
      exact startsWithChars_extend p (c :: cs) b h
    · right
      exact ih b h

/-- The occurrence survives text appended on the right. -/
theorem containsSub_left (v s t : String) (h : containsSub v s = true) :
    containsSub v (s ++ t) = true := by
  rw [containsSub, String.data_append]
  exact containsChars_extendR _ _ _ h

/-- The occurrence survives text prepended on the left. -/
theorem containsSub_right (v s t : String) (h : containsSub v t = true) :
    containsSub v (s ++ t) = true := by
  rw [containsSub, String.data_append]
  exact containsChars_skip _ _ h _

/-- Every string occurs in itself. -/
theorem containsSub_self (v : String) : containsSub v v = true := by
  rw [containsSub]
  have h := containsChars_here v.data []
  rwa [List.append_nil] at h

/-- C4 (amended): LONG_FUNCTION and HIGH_COMPLEXITY messages contain both
the measured value and the configured threshold; TOO_MANY_PARAMETERS and
LARGE_CLASS messages contain the measured value but not the threshold (see
the counterexample for the missing threshold). -/
theorem claim_C4 (fp name : String) (lineno : Nat) (e : Option Nat) (a : Arguments)
    (ds : Option String) (body : List Node) (cname : String) (clineno : Nat)
    (cds : Option String) (cbody : List Node) :
    (∀ x ∈ func_issues fp (.functionDef name lineno e a ds body),
      (x.issue_type = "LONG_FUNCTION" →
        containsSub (toString (func_lines_of lineno e)) x.message = true ∧
        containsSub (toString MAX_FUNCTION_LENGTH) x.message = true) ∧
      (x.issue_type = "TOO_MANY_PARAMETERS" →
        containsSub (toString a.args) x.message = true) ∧
      (x.issue_type = "HIGH_COMPLEXITY" →
        containsSub
          (toString (calculate_complexity (.functionDef name lineno e a ds body)))
          x.message = true ∧
        containsSub (toString MAX_COMPLEXITY) x.message = true)) ∧
    (∀ x ∈ class_issues fp (.classDef cname clineno cds cbody),
      x.issue_type = "LARGE_CLASS" →
        containsSub (toString (cbody.filter isFunctionDefB).length) x.message = true) := by
  constructor
  · intro x hx
    have h := (func_issues_sublist fp name lineno e a ds body).subset hx
    simp only [List.mem_cons, List.not_mem_nil, or_false] at h
    rcases h with h | h | h | h <;> subst h
    · refine ⟨fun _ => ⟨?_, ?_⟩, fun hc => by simp at hc, fun hc => by simp at hc⟩
      · exact containsSub_left _ _ _ (containsSub_left _ _ _ (containsSub_left _ _ _
          (containsSub_right _ _ _ (containsSub_self _))))
      · exact containsSub_left _ _ _ (containsSub_right _ _ _ (containsSub_self _))
    · exact ⟨fun hc => by simp at hc, fun hc => by simp at hc, fun hc => by simp at hc⟩
    · refine ⟨fun hc => by simp at hc, fun _ => ?_, fun hc => by simp at hc⟩
      exact containsSub_left _ _ _ (containsSub_right _ _ _ (containsSub_self _))
    · refine ⟨fun hc => by simp at hc, fun hc => by simp at hc, fun _ => ⟨?_, ?_⟩⟩
      · exact containsSub_left _ _ _ (containsSub_left _ _ _ (containsSub_left _ _ _
          (containsSub_right _ _ _ (containsSub_self _))))
      · exact containsSub_left _ _ _ (containsSub_right _ _ _ (containsSub_self _))
  · intro x hx
    have h := (class_issues_sublist fp cname clineno cds cbody).subset hx
    simp only [List.mem_cons, List.not_mem_nil, or_false] at h
    rcases h with h | h <;> subst h
    · exact fun hc => by simp at hc
    · exact fun _ => containsSub_left _ _ _ (containsSub_right _ _ _ (containsSub_self _))

/-- Counterexample for C4 as stated: the TOO_MANY_PARAMETERS message of a
6-parameter function is exactly the text below, which contains the measured
value 6 but not the threshold 5. -/
theorem claim_C4_counterexample :
    func_issues "a.py"
      (.functionDef "f" 1 (some 1) ⟨0, 6, 0, false, false⟩ (some "d") []) =
      [⟨"a.py", 1, "TOO_MANY_PARAMETERS", "MEDIUM",
        "Function \x27" ++ "f" ++ "\x27 has " ++ toString (6 : Nat) ++ " parameters",
        "Consider using a configuration object or dataclass to group parameters"⟩] ∧
    containsSub "5"
      ("Function \x27" ++ "f" ++ "\x27 has " ++ toString (6 : Nat) ++ " parameters") =
      false := by
  constructor
  · norm_num [func_issues, func_lines_of, docstringTruthy, calculate_complexity,
      walk, children, contrib, MAX_FUNCTION_LENGTH, MAX_COMPLEXITY]
    decide
  · decide

/-- Witness for C4 (amended) at the 6-parameter function: the measured value
appears in the TOO_MANY_PARAMETERS message. -/
theorem claim_C4_witness :
    containsSub (toString (⟨0, 6, 0, false, false⟩ : Arguments).args)
      ("Function \x27" ++ "f" ++ "\x27 has " ++
        toString (⟨0, 6, 0, false, false⟩ : Arguments).args ++ " parameters") = true :=
  ((claim_C4 "a.py" "f" 1 (some 1) ⟨0, 6, 0, false, false⟩ (some "d") [] "C" 1 none []).1
    ⟨"a.py", 1, "TOO_MANY_PARAMETERS", "MEDIUM",
      "Function \x27" ++ "f" ++ "\x27 has " ++
        toString (⟨0, 6, 0, false, false⟩ : Arguments).args ++ " parameters",
      "Consider using a configuration object or dataclass to group parameters"⟩
    (by norm_num [func_issues, func_lines_of, docstringTruthy, calculate_complexity,
      walk, children, contrib, MAX_FUNCTION_LENGTH, MAX_COMPLEXITY])).2.1 rfl

/-- C6 (amended): when every eligible file in the enumeration is readable,
the directory walk returns one result per eligible file, in order — in
particular a parse failure inside one file never prevents the analysis of
the remaining files.  A file whose read raises, however, aborts the whole
walk (see the counterexample). -/
theorem claim_C6 (files : List FsFile)
    (h : ∀ f ∈ files, eligibleFile f = true → readable f = true) :
    analyze_path_dir files = .ok ((files.filter eligibleFile).map result_of_file) := by
  induction files with
  | nil => simp [analyze_path_dir]
  | cons f rest ih =>
    have hf := h f (List.mem_cons_self f rest)
    have hrest : ∀ g ∈ rest, eligibleFile g = true → readable g = true :=
      fun g hg => h g (List.mem_cons_of_mem f hg)
    rw [analyze_path_dir]
    by_cases hskip : (skip_markers.any fun s => containsSub s f.path) = true
    · have he : eligibleFile f = false := by simp [eligibleFile, hskip]
      rw [if_pos hskip, ih hrest, List.filter_cons_of_neg (by simp [he])]
    · rw [if_neg hskip]
      by_cases hex : f.file_exists = true
      · by_cases hsuf : f.suffix ∈ analyzer_suffixes
        · have he : eligibleFile f = true := by
            simp only [eligibleFile, Bool.and_eq_true, Bool.not_eq_true']
            exact ⟨⟨by simpa using hskip, hex⟩, by simpa using hsuf⟩
          have hr := hf he
          cases ho : f.outcome with
          | readError msg =>
            simp [readable, ho] at hr
          | readOk content parse =>
            have key : analyze_file f = .ok (some (analyze f.path content parse)) := by
              simp [analyze_file, hex, hsuf, ho]
            rw [key, ih hrest, List.filter_cons_of_pos he]
            simp [result_of_file, ho]
        · have key : analyze_file f = .ok none := by
            simp [analyze_file, hex, hsuf]
          have he : eligibleFile f = false := by simp [eligibleFile, hsuf]
          rw [key, ih hrest, List.filter_cons_of_neg (by simp [he])]
      · have key : analyze_file f = .ok none := by simp [analyze_file, hex]
        have he : eligibleFile f = false := by simp [eligibleFile, hex]
        rw [key, ih hrest, List.filter_cons_of_neg (by simp [he])]

/-- Counterexample for C6 as stated: an unreadable first file aborts the
whole walk with no results at all, although the second file alone is
analyzed (its parse failure is contained). -/
theorem claim_C6_counterexample :
    analyze_path_dir
      [⟨"a.py", ".py", true, .readError "PermissionError"⟩,
       ⟨"b.py", ".py", true, .readOk "x ==" (.syntaxError "invalid syntax" (some 1))⟩] =
      .error "PermissionError" ∧
    analyze_path_dir
      [⟨"b.py", ".py", true, .readOk "x ==" (.syntaxError "invalid syntax" (some 1))⟩] =
      .ok [⟨"b.py",
        [⟨"b.py", 1, "SYNTAX_ERROR", "HIGH", "Syntax error: " ++ "invalid syntax",
          "Fix the syntax error before proceeding"⟩], []⟩] :=
  ⟨rfl, rfl⟩

/-- Witness for C6 (amended): a walk over a syntactically broken file and a
clean file returns a result for each. -/
theorem claim_C6_witness :
    analyze_path_dir
      [⟨"b.py", ".py", true, .readOk "x ==" (.syntaxError "invalid syntax" (some 1))⟩,
       ⟨"c.py", ".py", true, .readOk "" (.parsed (Node.other []))⟩] =
      .ok (([(⟨"b.py", ".py", true, .readOk "x =="
            (.syntaxError "invalid syntax" (some 1))⟩ : FsFile),
          ⟨"c.py", ".py", true, .readOk "" (.parsed (Node.other []))⟩].filter
          eligibleFile).map result_of_file) :=
  claim_C6 _ (by decide)

end Atena
